import Mathlib

/-!
Verification of the Fliplet chatbot core against its specification.

The development shallowly embeds the four core components of the system:

* the conversation engine (`src/src/chat-engine.js`): the iterative
  "ask model / dispatch tools / append results" loop `ChatEngine.chat`,
  with the safety iteration cap and the append-only history;
* the concurrent tool dispatch of one round (`Promise.all` over the
  tool calls of an assistant message), modelled with an explicit
  completion schedule so that order-preservation of the join is provable;
* the tool dispatcher (`ToolExecutor` in the server entry sources) and
  the resource client (`FlipletApiClient`), over an abstract `fetch`;
* the session registry (`src/src/session-manager.js`), a JS `Map` in
  insertion order with capacity eviction and TTL sweep.

JavaScript objects are embedded as structures, `undefined`/`null`
optional values as `Option`, thrown exceptions as `Except`, and
`Date.now()` timestamps as `Nat` arguments passed explicitly.
-/

namespace FlipletBot

/-! ## Messages (data model of `chat-engine.js`) -/

/-- Message roles used by the OpenAI chat API. -/
inductive Role where
  | system
  | user
  | assistant
  | tool
deriving DecidableEq

/-- One tool call emitted by the model: `{ id, function: { name, arguments } }`.
`arguments` is the raw serialized JSON string produced by the model. -/
structure ToolCall where
  id : String
  name : String
  arguments : String
deriving DecidableEq

/-- One entry of the conversation history.  `content` is `none` for a
tool-call-only assistant turn; `tool_call_id` is set only on tool-result
messages. -/
structure Message where
  role : Role
  content : Option String
  tool_calls : List ToolCall := []
  tool_call_id : Option String := none
deriving DecidableEq

/-- The assistant message extracted from an OpenAI response
(`response.choices[0].message`); its role is always `assistant` per the
OpenAI API contract. -/
structure AssistantMsg where
  content : Option String
  tool_calls : List ToolCall := []
deriving DecidableEq

/-- Pushing the model response verbatim onto history
(`this._history.push(assistantMessage)`). -/
def assistantToMessage (m : AssistantMsg) : Message :=
  { role := .assistant, content := m.content, tool_calls := m.tool_calls }

/-! ## System prompt and safety message (`chat-engine.js`) -/

/-- The fixed system instruction content of `ChatEngine.getSystemPrompt`
(apostrophes written as the escape \x27, verbatim otherwise). -/
def systemPromptContent : String :=
  "You are a Fliplet App Assistant. Your ONLY purpose is to answer " ++
  "questions about the data sources, data entries, and media files " ++
  "for a specific Fliplet app using the tools provided. " ++
  "You have access to tools that query the Fliplet REST API. " ++
  "Use these tools to look up real data before answering. " ++
  "Always be accurate — only state what the API data confirms. " ++
  "If a tool call fails, explain the error to the user clearly. " ++
  "\n\nScope rules:\n" ++
  "- ONLY answer questions related to this Fliplet app\x27s data sources, entries, files, and media.\n" ++
  "- If the user asks something unrelated (general knowledge, coding help, opinions, etc.), " ++
  "politely decline and remind them you can only help with this app\x27s data sources and files.\n" ++
  "- Example refusal: \"I can only help with questions about this Fliplet app\x27s data sources and files. " ++
  "Try asking me things like: What data sources does this app have? or What media files are uploaded?\"\n" ++
  "\n\nFormatting rules:\n" ++
  "- Use **Markdown tables** when listing multiple items with shared attributes (e.g. data sources with Name, ID, Columns).\n" ++
  "- Keep responses concise — summarize large lists (e.g. show top 10 and state the total count).\n" ++
  "- Use bold for names and IDs. Use bullet lists for short enumerations.\n" ++
  "- For data source entries, format as a clean table with column headers.\n" ++
  "- Avoid repeating obvious labels — let table headers do the work.\n" ++
  "- If there are many items, group them by type or category when possible."

/-- `ChatEngine.getSystemPrompt()`: the system message prepended to every
outbound model call; it is never pushed onto `_history`. -/
def getSystemPrompt : Message :=
  { role := .system, content := some systemPromptContent }

/-- The canned safety answer appended when the iteration cap is reached. -/
def safetyMessageContent : String :=
  "I reached the maximum number of tool calls without producing a final answer. " ++
  "Please try rephrasing your question."

/-! ## The chat loop (`ChatEngine.chat`)

The OpenAI client is abstracted as an oracle `model : List Message →
AssistantMsg` from the outbound `messages` array to the assistant message
of the response (the claims under study presuppose that model calls
succeed; a failing model call propagates out of `chat` and is out of the
scope of these claims).  The per-call tool dispatch
`JSON.stringify(await toolExecutor.execute(name, JSON.parse(arguments)))`
is abstracted as a total function `ex : String → String → String` from
the tool name and the raw arguments to the serialized result content;
the executor itself is embedded and verified separately below.

The JS `while (iterations < this._maxIterations)` loop with its upward
counter is embedded as structural recursion on the remaining number of
iterations `remaining = maxIterations - iterations`.

In addition to the history and the returned answer, the embedding records
an audit trace: the outbound `messages` array of every OpenAI call made,
and one `(name, arguments)` entry per `toolExecutor.execute` invocation,
in invocation order. -/

structure ChatOutcome where
  history : List Message
  answer : Option String
  modelCalls : List (List Message)
  toolTrace : List (String × String)
deriving DecidableEq

/-- The tool-result message built for one tool call inside `Promise.all`:
`{ role: 'tool', tool_call_id: toolCall.id, content: JSON.stringify(result) }`. -/
def runToolCall (ex : String → String → String) (c : ToolCall) : Message :=
  { role := .tool, content := some (ex c.name c.arguments), tool_call_id := some c.id }

/-- The value `Promise.all` resolves to in one round: the tool results in
the original call order. -/
def executeRound (ex : String → String → String) (cs : List ToolCall) : List Message :=
  cs.map (runToolCall ex)

/-- The executor invocations `(function.name, function.arguments)` issued
by one round, in the order the tool calls were issued. -/
def roundTrace (cs : List ToolCall) : List (String × String) :=
  cs.map (fun c => (c.name, c.arguments))

/-- The body of `ChatEngine.chat` after the user message has been pushed:
each recursive step is one model call (one loop iteration). -/
def chatGo (model : List Message → AssistantMsg) (ex : String → String → String) :
    Nat → List Message → List (List Message) → List (String × String) → ChatOutcome
  | 0, hist, calls, trace =>
      -- `iterations` reached `maxIterations`: push and return the canned message
      { history := hist ++ [{ role := .assistant, content := some safetyMessageContent }],
        answer := some safetyMessageContent, modelCalls := calls, toolTrace := trace }
  | remaining + 1, hist, calls, trace =>
      let messages := getSystemPrompt :: hist
      let resp := model messages
      if resp.tool_calls.isEmpty then
        -- no tool calls: final text answer, pushed as an assistant message
        { history := hist ++ [{ role := .assistant, content := resp.content }],
          answer := resp.content, modelCalls := calls ++ [messages], toolTrace := trace }
      else
        -- tool calls: push the assistant message verbatim, dispatch all calls
        -- concurrently, append the results in call order, and loop
        chatGo model ex remaining
          (hist ++ [assistantToMessage resp] ++ executeRound ex resp.tool_calls)
          (calls ++ [messages]) (trace ++ roundTrace resp.tool_calls)

/-- `ChatEngine.chat(userMessage)`: push the user message, then run the
iterative loop with the configured cap. -/
def chat (model : List Message → AssistantMsg) (ex : String → String → String)
    (maxIterations : Nat) (hist : List Message) (userMessage : String) : ChatOutcome :=
  chatGo model ex maxIterations (hist ++ [{ role := .user, content := some userMessage }]) [] []

/-! ## The `Promise.all` join of one round, with an explicit schedule

`Promise.all(tool_calls.map(...))` starts one task per tool call and
resolves to the array whose slot `i` holds the result of task `i`,
whatever order the tasks settle in.  The settle order is modelled as an
explicit list `order` of task indices; each settling task writes its
result into its own slot, and the resolved array reads the slots in index
order.  The order-preservation claim is that for every schedule that
settles each task exactly once, the resolved array is exactly
`executeRound` (the results in original call order). -/

/-- Slot contents after the tasks listed in `order` have settled. -/
def promiseSlots (f : ToolCall → Message) (cs : List ToolCall) (order : List Nat) :
    Nat → Option Message :=
  order.foldl (fun slots i => fun j => if j = i then (cs[i]?).map f else slots j)
    (fun _ => none)

/-- The array `Promise.all` resolves to, read out of the slots in index
order (a slot still holds `none` if its task never settled). -/
def promiseAll (f : ToolCall → Message) (cs : List ToolCall) (order : List Nat) :
    List (Option Message) :=
  (List.range cs.length).map (promiseSlots f cs order)

/-! ## Engine operation sequences (`chat` / `reset`)

`reset()` truncates the history to empty.  `runEngineOps` folds a
sequence of public operations over one engine state, accumulating every
outbound model call for auditing. -/

inductive EngineOp where
  | chatOp (userMessage : String)
  | resetOp
deriving DecidableEq

structure EngineState where
  history : List Message
  outboundCalls : List (List Message)
deriving DecidableEq

def applyEngineOp (model : List Message → AssistantMsg) (ex : String → String → String)
    (maxIterations : Nat) (s : EngineState) : EngineOp → EngineState
  | .chatOp u =>
      let o := chat model ex maxIterations s.history u
      { history := o.history, outboundCalls := s.outboundCalls ++ o.modelCalls }
  | .resetOp => { history := [], outboundCalls := s.outboundCalls }

def runEngineOps (model : List Message → AssistantMsg) (ex : String → String → String)
    (maxIterations : Nat) (ops : List EngineOp) : EngineState :=
  ops.foldl (applyEngineOp model ex maxIterations) { history := [], outboundCalls := [] }

/-! ## Errors of the resource client (`fliplet-client` source)

Two kinds of exception travel through the client: the custom
`FlipletApiError` (always constructed with a message, a status code and a
response body) and ordinary errors (a plain `Error`, or whatever the
injected `fetch` rejected with), carrying a `name` and a `message`.
Serialized JSON values (response bodies, payloads) are kept as `String`. -/

inductive JsError where
  | flipletApi (message : String) (statusCode : Nat) (responseBody : String)
  | other (name : String) (message : String)
deriving DecidableEq

def JsError.message : JsError → String
  | .flipletApi m _ _ => m
  | .other _ m => m

/-- The `error.name === 'FlipletApiError'` test of `_formatError`. -/
def JsError.isFlipletApiError : JsError → Bool
  | .flipletApi _ _ _ => true
  | .other _ _ => false

/-! ## `FlipletApiClient` (the resource client)

`fetch` is injected, as in the source.  A fetch outcome either resolves
to a response (whose body may or may not parse as JSON) or rejects; an
abort of the 30-second timer rejects with an error named `AbortError`.
The `POST /data/query` body is modelled before serialization as
`RequestBody`.  Fixed headers (`Auth-token`, `Content-Type`) do not vary
and are not modelled.  Each client method returns its result paired with
the number of `fetch` invocations it performed. -/

structure FetchResponse where
  ok : Bool
  status : Nat
  statusText : String
  /-- `some data`: `response.json()` succeeded with this (serialized) value;
  `none`: the body is not parseable as JSON. -/
  jsonBody : Option String

inductive FetchResult where
  | resolved (r : FetchResponse)
  | rejected (name : String) (message : String)

/-- The `{ type: 'select', where?, limit?, offset? }` query body built by
`getDataSourceEntries`, before `JSON.stringify`.  The `where` filter is
kept as a serialized JSON object. -/
structure RequestBody where
  type : String
  whereClause : Option String := none
  limit : Option Int := none
  offset : Option Int := none

structure FlipletApiClient where
  baseUrl : String
  token : String
  appId : String
  fetchFn : String → String → Option RequestBody → FetchResult

namespace FlipletApiClient

/-- `_request(path, method, body)`: exactly one `fetch`; an `AbortError`
rejection becomes a timeout-flavoured `FlipletApiError`, other rejections
are rethrown; a non-JSON body or a non-2xx status raises a
`FlipletApiError` with the status and the (parsed or empty) body. -/
def request (c : FlipletApiClient) (path : String) (method : String := "GET")
    (body : Option RequestBody := none) : Except JsError String × Nat :=
  match c.fetchFn (c.baseUrl ++ path) method body with
  | .rejected name msg =>
      if name = "AbortError" then
        (.error (.flipletApi "Fliplet API request timed out after 30 seconds" 0 "\x7b\x7d"), 1)
      else
        (.error (.other name msg), 1)
  | .resolved r =>
      match r.jsonBody with
      | none =>
          (.error (.flipletApi
            ("Fliplet API returned non-JSON response: " ++ toString r.status ++ " "
              ++ r.statusText ++ " — " ++ (c.baseUrl ++ path)) r.status "\x7b\x7d"), 1)
      | some data =>
          if r.ok then (.ok data, 1)
          else
            (.error (.flipletApi
              ("Fliplet API error: " ++ toString r.status ++ " " ++ r.statusText ++ " — "
                ++ (c.baseUrl ++ path)) r.status data), 1)

/-- `listDataSources()`.  (The JS unwraps the `dataSources` field of the
parsed body; the unwrapping is a pure projection of the response and is
not modelled — no claim depends on the payload shape.) -/
def listDataSources (c : FlipletApiClient) : Except JsError String × Nat :=
  c.request ("/v1/data-sources?appId=" ++ c.appId)

/-- `getDataSource(dataSourceId)`: validates the required id (`undefined`
and `null` are both `none`) before any request. -/
def getDataSource (c : FlipletApiClient) (dataSourceId : Option Int) :
    Except JsError String × Nat :=
  match dataSourceId with
  | none => (.error (.other "Error" "getDataSource() requires a dataSourceId"), 0)
  | some id => c.request ("/v1/data-sources/" ++ toString id)

/-- The optional query options of `getDataSourceEntries`. -/
structure QueryOptions where
  whereClause : Option String := none
  limit : Option Int := none
  offset : Option Int := none
deriving DecidableEq

/-- `getDataSourceEntries(dataSourceId, options)`: validates the required
id, then issues one `POST /data/query` with the `select` body. -/
def getDataSourceEntries (c : FlipletApiClient) (dataSourceId : Option Int)
    (options : QueryOptions := {}) : Except JsError String × Nat :=
  match dataSourceId with
  | none => (.error (.other "Error" "getDataSourceEntries() requires a dataSourceId"), 0)
  | some id =>
      let body : RequestBody :=
        { type := "select", whereClause := options.whereClause,
          limit := options.limit, offset := options.offset }
      c.request ("/v1/data-sources/" ++ toString id ++ "/data/query") "POST" (some body)

/-- `listMedia(folderId)`: no required parameter; the folder filter is
appended to the query string when present. -/
def listMedia (c : FlipletApiClient) (folderId : Option Int) : Except JsError String × Nat :=
  let path := "/v1/media?appId=" ++ c.appId
  let path := match folderId with
    | none => path
    | some fid => path ++ "&folderId=" ++ toString fid
  c.request path

/-- `getMediaFile(fileId)`: validates the required id before any request. -/
def getMediaFile (c : FlipletApiClient) (fileId : Option Int) : Except JsError String × Nat :=
  match fileId with
  | none => (.error (.other "Error" "getMediaFile() requires a fileId"), 0)
  | some fid => c.request ("/v1/media/files/" ++ toString fid)

end FlipletApiClient

/-! ## `ToolExecutor` (the tool dispatcher) -/

/-- The parsed arguments object of a tool call, as the five handlers read
it: `dataSourceId`, `fileId`, `folderId`, and the rest-spread query
options of `get_data_source_entries`. -/
structure ToolArgs where
  dataSourceId : Option Int := none
  fileId : Option Int := none
  folderId : Option Int := none
  options : FlipletApiClient.QueryOptions := {}
deriving DecidableEq

/-- The `{ error: true, message, statusCode?, details? }` record returned
to the model in place of a thrown error (the `error: true` flag is the
variant tag of `ToolResult` below). -/
structure ErrorRecord where
  message : String
  statusCode : Option Nat := none
  details : Option String := none
deriving DecidableEq

/-- The contract of the dispatcher toward the engine: the raw successful
payload, or a structured error record. -/
inductive ToolResult where
  | ok (payload : String)
  | errorData (record : ErrorRecord)
deriving DecidableEq

namespace ToolExecutor

/-- `_formatError(error)`: `statusCode` and `details` (the response body)
are attached exactly for `FlipletApiError`s. -/
def formatError : JsError → ErrorRecord
  | .flipletApi m s b => { message := m, statusCode := some s, details := some b }
  | .other _ m => { message := m }

/-- The five own properties of the `_handlers` object literal built in
the constructor (the dispatch table proper): tool name to the one client
call the handler makes.  The JS bracket lookup `this._handlers[toolName]`
additionally finds the members the object literal inherits from
`Object.prototype`; that fallback is modelled by `handlersSlot` below. -/
def handlerFor (toolName : String) :
    Option (FlipletApiClient → ToolArgs → Except JsError String × Nat) :=
  if toolName = "list_data_sources" then
    some (fun c _ => c.listDataSources)
  else if toolName = "get_data_source" then
    some (fun c a => c.getDataSource a.dataSourceId)
  else if toolName = "get_data_source_entries" then
    some (fun c a => c.getDataSourceEntries a.dataSourceId a.options)
  else if toolName = "list_media" then
    some (fun c a => c.listMedia a.folderId)
  else if toolName = "get_media_file" then
    some (fun c a => c.getMediaFile a.fileId)
  else
    none

/-- `execute(toolName, args)`, with the handler lookup restricted to the
dispatch table's own properties (adequate for the dispatch-table names; the
full bracket lookup is modelled by `executeProto` below): a name missing
from the table throws (the outer `Except.error`, carrying the thrown
message); a handler error is caught and converted to data (`Except.ok`
of an error record). -/
def execute (c : FlipletApiClient) (toolName : String) (args : ToolArgs) :
    Except String ToolResult :=
  match handlerFor toolName with
  | none => .error ("Unknown tool: " ++ toolName)
  | some h =>
      match (h c args).1 with
      | .ok payload => .ok (.ok payload)
      | .error e => .ok (.errorData (formatError e))

/-- The function-valued members every plain object literal inherits from
`Object.prototype` in Node: the bracket lookup `this._handlers[name]`
finds these too, and they are truthy, so the `if (!handler)` unknown-tool
guard does not fire on them. -/
def objectPrototypeFunctionKeys : List String :=
  ["constructor", "hasOwnProperty", "isPrototypeOf", "propertyIsEnumerable",
    "toLocaleString", "toString", "valueOf",
    "__defineGetter__", "__defineSetter__", "__lookupGetter__", "__lookupSetter__"]

/-- What the bracket lookup `this._handlers[toolName]` can find on the
`_handlers` object literal: one of its five own handler properties, a
function member inherited from `Object.prototype`, the (non-callable)
`Object.prototype` object itself reached through the `__proto__`
accessor, or `undefined`. -/
inductive HandlerSlot where
  | own (h : FlipletApiClient → ToolArgs → Except JsError String × Nat)
  | protoFunction
  | protoObject
  | undefinedSlot

/-- The full JS property lookup `this._handlers[toolName]`: own
properties shadow the prototype chain; otherwise the inherited
`Object.prototype` members are found; every other name is `undefined`. -/
def handlersSlot (toolName : String) : HandlerSlot :=
  match handlerFor toolName with
  | some h => .own h
  | none =>
      if toolName ∈ objectPrototypeFunctionKeys then .protoFunction
      else if toolName = "__proto__" then .protoObject
      else .undefinedSlot

/-- `execute(toolName, args)` with the bracket lookup modelled in full.
Only a name found nowhere on the chain hits the `if (!handler)` guard
and throws `Unknown tool`.  An inherited function member is invoked like
a handler; the call never touches the Fliplet client, and its result —
determined by the JavaScript runtime, not by this repository (e.g. the
string `Object.prototype.toString` builds, or the `TypeError` that
`__defineGetter__` throws for a missing getter) — is injected as
`protoCall`, with a thrown error converted to data by the catch like any
handler error.  `Object.prototype` itself (found through `__proto__`) is
not callable, so the call throws `TypeError: handler is not a function`,
which the catch also converts to an error record. -/
def executeProto (protoCall : String → ToolArgs → Except JsError String)
    (c : FlipletApiClient) (toolName : String) (args : ToolArgs) :
    Except String ToolResult :=
  match handlersSlot toolName with
  | .undefinedSlot => .error ("Unknown tool: " ++ toolName)
  | .own h =>
      match (h c args).1 with
      | .ok payload => .ok (.ok payload)
      | .error e => .ok (.errorData (formatError e))
  | .protoFunction =>
      match protoCall toolName args with
      | .ok value => .ok (.ok value)
      | .error e => .ok (.errorData (formatError e))
  | .protoObject => .ok (.errorData (formatError (.other "TypeError" "handler is not a function")))

end ToolExecutor

/-! ## `SessionManager` (the session registry)

The private `Map` of sessions is embedded as an association list in
insertion order (a JS `Map` iterates in insertion order, and
`getOrCreate` only inserts ids that are not yet present, so keys stay
distinct).  The injected engine factory is modelled by an allocation
counter `nextEngine`: each factory call hands out a fresh engine
identified by the next number.  `Date.now()` is passed in explicitly.

In the constructor, `options.sessionTtlMs || DEFAULT` and
`options.maxSessions || DEFAULT` fall back to the default both for an
absent option and for the falsy value `0`. -/

structure Session where
  engine : Nat
  lastAccessed : Nat
deriving DecidableEq

structure SessionManager where
  sessions : List (String × Session)
  nextEngine : Nat
  sessionTtlMs : Nat
  maxSessions : Nat
deriving DecidableEq

namespace SessionManager

/-- The JS `x || d` fallback on an optional numeric option (`0` is falsy). -/
def jsOrDefault (o : Option Nat) (d : Nat) : Nat :=
  match o with
  | none => d
  | some 0 => d
  | some (n + 1) => n + 1

/-- The constructor: empty map, TTL defaulting to 30 minutes,
capacity defaulting to 100 sessions. -/
def new (sessionTtlMs maxSessions : Option Nat := none) : SessionManager :=
  { sessions := [], nextEngine := 0,
    sessionTtlMs := jsOrDefault sessionTtlMs (30 * 60 * 1000),
    maxSessions := jsOrDefault maxSessions 100 }

/-- `has(sessionId)`. -/
def has (m : SessionManager) (sessionId : String) : Bool :=
  m.sessions.any (fun p => p.1 == sessionId)

/-- The for-loop of `_evictOldest`: `oldestId` starts as `null` (`none`)
and `oldestTime` as `Infinity` (`none`), and each entry with a strictly
smaller `lastAccessed` than the best so far replaces it. -/
def oldestGo : List (String × Session) → Option String → Option Nat → Option String × Option Nat
  | [], bestId, bestTime => (bestId, bestTime)
  | p :: rest, bestId, bestTime =>
      match bestTime with
      | none => oldestGo rest (some p.1) (some p.2.lastAccessed)
      | some t =>
          if p.2.lastAccessed < t then oldestGo rest (some p.1) (some p.2.lastAccessed)
          else oldestGo rest bestId bestTime

/-- `_evictOldest()`: find the least-recently-accessed session and delete
it.  The final `if (oldestId)` guard skips the deletion when `oldestId`
is falsy — that is, when the map was empty (`null`), but also when the
found session id is the empty string. -/
def evictOldest (m : SessionManager) : SessionManager :=
  match (oldestGo m.sessions none none).1 with
  | none => m
  | some oid =>
      if oid = "" then m
      else { m with sessions := m.sessions.eraseP (fun p => p.1 == oid) }

/-- `getOrCreate(sessionId)`: touch and return an existing session's
engine, otherwise evict at capacity, create a fresh engine via the
factory, and store it.  Returns the engine handed out. -/
def getOrCreate (m : SessionManager) (sessionId : String) (now : Nat) :
    SessionManager × Nat :=
  match m.sessions.find? (fun p => p.1 == sessionId) with
  | some p =>
      ({ m with sessions :=
          m.sessions.map (fun q =>
            if q.1 = sessionId then (q.1, { q.2 with lastAccessed := now }) else q) },
        p.2.engine)
  | none =>
      let m1 := if m.sessions.length ≥ m.maxSessions then m.evictOldest else m
      ({ m1 with
          sessions := m1.sessions ++ [(sessionId, { engine := m1.nextEngine, lastAccessed := now })],
          nextEngine := m1.nextEngine + 1 },
        m1.nextEngine)

/-- `destroy(sessionId)`: delete the entry; a no-op on unknown ids. -/
def destroy (m : SessionManager) (sessionId : String) : SessionManager :=
  { m with sessions := m.sessions.eraseP (fun p => p.1 == sessionId) }

/-- `_evictExpired()`, the periodic TTL sweep: delete every session with
`now - lastAccessed > sessionTtlMs`.  (`Nat` truncated subtraction agrees
with the JS comparison: a session accessed at or after `now` is kept in
both.) -/
def evictExpired (m : SessionManager) (now : Nat) : SessionManager :=
  { m with sessions :=
      m.sessions.filter (fun p => decide ¬ (now - p.2.lastAccessed > m.sessionTtlMs)) }

/-- Well-formedness of a registry state, maintained by construction in
the JS `Map`: stored keys are distinct, and every stored engine was
handed out by the factory (its number is below the allocation counter). -/
def WF (m : SessionManager) : Prop :=
  (m.sessions.map Prod.fst).Nodup ∧ ∀ p ∈ m.sessions, p.2.engine < m.nextEngine

end SessionManager

/-! ## Registry operation sequences (`getOrCreate` / `destroy`) -/

inductive SMOp where
  | create (sessionId : String) (now : Nat)
  | destroySession (sessionId : String)
deriving DecidableEq

def SMOp.sessionId : SMOp → String
  | .create id _ => id
  | .destroySession id => id

def applySMOp (m : SessionManager) : SMOp → SessionManager
  | .create id now => (m.getOrCreate id now).1
  | .destroySession id => m.destroy id

def runSMOps (m : SessionManager) (ops : List SMOp) : SessionManager :=
  ops.foldl applySMOp m

/-- Decidable equality of `Except` results, used to evaluate witnesses. -/
def exceptDecEq {ε α : Type} [DecidableEq ε] [DecidableEq α] : DecidableEq (Except ε α) :=
  fun x y =>
    match x, y with
    | .ok a, .ok b =>
        if h : a = b then .isTrue (by rw [h]) else .isFalse (by intro hc; cases hc; exact h rfl)
    | .error e, .error f =>
        if h : e = f then .isTrue (by rw [h]) else .isFalse (by intro hc; cases hc; exact h rfl)
    | .ok _, .error _ => .isFalse (by intro hc; cases hc)
    | .error _, .ok _ => .isFalse (by intro hc; cases hc)

instance {ε α : Type} [DecidableEq ε] [DecidableEq α] : DecidableEq (Except ε α) :=
  exceptDecEq

/-! # Theorems -/

/-! ## The conversation loop: iteration cap (C1), plain answer (C5) -/

/-- Helper for C1: whenever the model oracle answers every call with at
least one tool call, the loop runs down its full budget, issuing one
model call per remaining iteration, and ends in the safety message. -/
theorem chatGo_tool_calls_forever (model : List Message → AssistantMsg)
    (ex : String → String → String) (hmodel : ∀ msgs, (model msgs).tool_calls ≠ []) :
    ∀ (r : Nat) (hist : List Message) (calls : List (List Message))
      (trace : List (String × String)),
      (chatGo model ex r hist calls trace).answer = some safetyMessageContent
      ∧ (chatGo model ex r hist calls trace).modelCalls.length = calls.length + r
      ∧ (chatGo model ex r hist calls trace).history.getLast?
          = some { role := .assistant, content := some safetyMessageContent } := by
  intro r
  induction r with
  | zero =>
      intro hist calls trace
      refine ⟨rfl, rfl, ?_⟩
      simp only [chatGo]
      exact List.getLast?_concat _
  | succ r ih =>
      intro hist calls trace
      have hne : ¬ (model (getSystemPrompt :: hist)).tool_calls.isEmpty = true := by
        intro h
        exact hmodel _ (List.isEmpty_iff.mp h)
      simp only [chatGo, if_neg hne]
      have h3 := ih (hist ++ [assistantToMessage (model (getSystemPrompt :: hist))]
          ++ executeRound ex (model (getSystemPrompt :: hist)).tool_calls)
        (calls ++ [getSystemPrompt :: hist])
        (trace ++ roundTrace (model (getSystemPrompt :: hist)).tool_calls)
      refine ⟨h3.1, ?_, h3.2.2⟩
      rw [h3.2.1]
      simp [Nat.add_assoc, Nat.add_comm 1 r]

/-- C1: if every model call returns an assistant message containing tool
calls, `chat(userMessage)` terminates after exactly the configured cap of
tool-call rounds, appends the canned safety message as an assistant
message to history, and returns that safety message; at most `cap + 1`
model calls are issued in total (here: exactly `cap`). -/
theorem chat_iteration_cap (model : List Message → AssistantMsg)
    (ex : String → String → String) (maxIterations : Nat) (hist : List Message)
    (userMessage : String) (hmodel : ∀ msgs, (model msgs).tool_calls ≠ []) :
    (chat model ex maxIterations hist userMessage).answer = some safetyMessageContent
    ∧ (chat model ex maxIterations hist userMessage).modelCalls.length = maxIterations
    ∧ (chat model ex maxIterations hist userMessage).modelCalls.length ≤ maxIterations + 1
    ∧ (chat model ex maxIterations hist userMessage).history.getLast?
        = some { role := .assistant, content := some safetyMessageContent } := by
  have h := chatGo_tool_calls_forever model ex hmodel maxIterations
    (hist ++ [{ role := .user, content := some userMessage }]) [] []
  have hlen : (chat model ex maxIterations hist userMessage).modelCalls.length
      = maxIterations := by
    rw [show chat model ex maxIterations hist userMessage
        = chatGo model ex maxIterations
            (hist ++ [{ role := .user, content := some userMessage }]) [] [] from rfl]
    rw [h.2.1]
    simp
  exact ⟨h.1, hlen, by rw [hlen]; omega, h.2.2⟩

/-- Witness for C1, at cap 3 with a model that always requests one tool
call: the answer is the canned safety message after exactly 3 model calls. -/
theorem chat_iteration_cap_witness :
    (chat (fun _ => ⟨none, [⟨"call_1", "list_data_sources", "\x7b\x7d"⟩]⟩)
      (fun _ _ => "[]") 3 [] "How many data sources?").answer = some safetyMessageContent
    ∧ (chat (fun _ => ⟨none, [⟨"call_1", "list_data_sources", "\x7b\x7d"⟩]⟩)
      (fun _ _ => "[]") 3 [] "How many data sources?").modelCalls.length = 3 := by
  have h := chat_iteration_cap
    (fun _ => ⟨none, [⟨"call_1", "list_data_sources", "\x7b\x7d"⟩]⟩)
    (fun _ _ => "[]") 3 [] "How many data sources?"
    (fun _ => by simp)
  exact ⟨h.1, h.2.1⟩

/-- C5: on a model response with no tool calls, `chat` returns exactly
that response's text content, and history grows by exactly two messages:
the user message, then an assistant message with that text. -/
theorem chat_plain_answer (model : List Message → AssistantMsg)
    (ex : String → String → String) (maxIterations : Nat) (hist : List Message)
    (userMessage : String) (hpos : 0 < maxIterations)
    (hresp : (model (getSystemPrompt
        :: (hist ++ [{ role := .user, content := some userMessage }]))).tool_calls = []) :
    (chat model ex maxIterations hist userMessage).answer
      = (model (getSystemPrompt
          :: (hist ++ [{ role := .user, content := some userMessage }]))).content
    ∧ (chat model ex maxIterations hist userMessage).history
        = hist ++ [{ role := .user, content := some userMessage },
            { role := .assistant,
              content := (model (getSystemPrompt
                :: (hist ++ [{ role := .user, content := some userMessage }]))).content }] := by
  obtain ⟨r, rfl⟩ : ∃ r, maxIterations = r + 1 := ⟨maxIterations - 1, by omega⟩
  have hemp : (model (getSystemPrompt
      :: (hist ++ [{ role := .user, content := some userMessage }]))).tool_calls.isEmpty
        = true := by
    rw [List.isEmpty_iff, hresp]
  constructor
  · simp [chat, chatGo, hemp]
  · simp [chat, chatGo, hemp]

/-- Witness for C5: a model answering "2 data sources." without tool
calls; `chat` returns that text and history is `[user, assistant]`. -/
theorem chat_plain_answer_witness :
    (chat (fun _ => { content := some "2 data sources.", tool_calls := [] })
      (fun _ _ => "[]") 10 [] "How many?").answer = some "2 data sources."
    ∧ (chat (fun _ => { content := some "2 data sources.", tool_calls := [] })
      (fun _ _ => "[]") 10 [] "How many?").history
        = [{ role := .user, content := some "How many?" },
            { role := .assistant, content := some "2 data sources." }] := by
  have h := chat_plain_answer (fun _ => { content := some "2 data sources.", tool_calls := [] })
    (fun _ _ => "[]") 10 [] "How many?" (by decide) rfl
  exact ⟨h.1, by rw [h.2]; rfl⟩

/-! ## History never contains a system message (C10) -/

/-- Helper for C10: the loop never pushes a system-role message, and
every outbound model call it issues starts with the system prompt. -/
theorem chatGo_no_system (model : List Message → AssistantMsg)
    (ex : String → String → String) :
    ∀ (r : Nat) (hist : List Message) (calls : List (List Message))
      (trace : List (String × String)),
      (∀ m ∈ hist, m.role ≠ Role.system) →
      (∀ c ∈ calls, c.head? = some getSystemPrompt) →
      (∀ m ∈ (chatGo model ex r hist calls trace).history, m.role ≠ Role.system)
      ∧ (∀ c ∈ (chatGo model ex r hist calls trace).modelCalls,
          c.head? = some getSystemPrompt) := by
  intro r
  induction r with
  | zero =>
      intro hist calls trace hh hc
      refine ⟨?_, hc⟩
      intro m hm
      rcases List.mem_append.mp hm with h | h
      · exact hh m h
      · rcases List.mem_singleton.mp h with rfl
        exact fun hcon => Role.noConfusion hcon
  | succ r ih =>
      intro hist calls trace hh hc
      by_cases hemp : (model (getSystemPrompt :: hist)).tool_calls.isEmpty = true
      · simp only [chatGo, if_pos hemp]
        refine ⟨?_, ?_⟩
        · intro m hm
          rcases List.mem_append.mp hm with h | h
          · exact hh m h
          · rcases List.mem_singleton.mp h with rfl
            exact fun hcon => Role.noConfusion hcon
        · intro c hcc
          rcases List.mem_append.mp hcc with h | h
          · exact hc c h
          · rcases List.mem_singleton.mp h with rfl
            rfl
      · simp only [chatGo, if_neg hemp]
        apply ih
        · intro m hm
          rcases List.mem_append.mp hm with h | h
          · rcases List.mem_append.mp h with h2 | h2
            · exact hh m h2
            · rcases List.mem_singleton.mp h2 with rfl
              exact fun hcon => Role.noConfusion hcon
          · rcases List.mem_map.mp h with ⟨c, _, rfl⟩
            exact fun hcon => Role.noConfusion hcon
        · intro c hcc
          rcases List.mem_append.mp hcc with h | h
          · exact hc c h
          · rcases List.mem_singleton.mp h with rfl
            rfl

/-- C10: over any sequence of `chat` and `reset` operations, the history
never contains a system-role message; the fixed system prompt heads the
message list of every outbound model call but is never appended. -/
theorem engine_history_no_system (model : List Message → AssistantMsg)
    (ex : String → String → String) (maxIterations : Nat) (ops : List EngineOp) :
    (∀ m ∈ (runEngineOps model ex maxIterations ops).history, m.role ≠ Role.system)
    ∧ (∀ c ∈ (runEngineOps model ex maxIterations ops).outboundCalls,
        c.head? = some getSystemPrompt) := by
  suffices h : ∀ (l : List EngineOp) (s : EngineState),
      (∀ m ∈ s.history, m.role ≠ Role.system) →
      (∀ c ∈ s.outboundCalls, c.head? = some getSystemPrompt) →
      (∀ m ∈ (l.foldl (applyEngineOp model ex maxIterations) s).history,
        m.role ≠ Role.system)
      ∧ (∀ c ∈ (l.foldl (applyEngineOp model ex maxIterations) s).outboundCalls,
          c.head? = some getSystemPrompt) by
    exact h ops { history := [], outboundCalls := [] }
      (fun m hm => absurd hm (List.not_mem_nil m))
      (fun c hc => absurd hc (List.not_mem_nil c))
  intro l
  induction l with
  | nil => intro s hh hc; exact ⟨hh, hc⟩
  | cons op rest ih =>
      intro s hh hc
      apply ih
      · cases op with
        | chatOp u =>
            intro m hm
            have := chatGo_no_system model ex maxIterations
              (s.history ++ [{ role := .user, content := some u }]) [] []
              (by
                intro m' hm'
                rcases List.mem_append.mp hm' with h | h
                · exact hh m' h
                · rcases List.mem_singleton.mp h with rfl
                  exact fun hcon => Role.noConfusion hcon)
              (fun c hc => absurd hc (List.not_mem_nil c))
            exact this.1 m hm
        | resetOp => intro m hm; exact absurd hm (List.not_mem_nil m)
      · cases op with
        | chatOp u =>
            intro c hcc
            rcases List.mem_append.mp hcc with h | h
            · exact hc c h
            · have := chatGo_no_system model ex maxIterations
                (s.history ++ [{ role := .user, content := some u }]) [] []
                (by
                  intro m' hm'
                  rcases List.mem_append.mp hm' with h2 | h2
                  · exact hh m' h2
                  · rcases List.mem_singleton.mp h2 with rfl
                    exact fun hcon => Role.noConfusion hcon)
                (fun c2 hc2 => absurd hc2 (List.not_mem_nil c2))
              exact this.2 c h
        | resetOp => exact hc

/-- Witness for C10: after one concrete chat, the assistant message in
history is not system-role. -/
theorem engine_history_no_system_witness :
    ({ role := Role.assistant, content := some "hi there" } : Message).role ≠ Role.system := by
  have h := engine_history_no_system
    (fun _ => { content := some "hi there", tool_calls := [] }) (fun _ _ => "[]") 10
    [EngineOp.chatOp "hello"]
  exact h.1 { role := Role.assistant, content := some "hi there" } (by decide)

/-! ## One round of parallel tool dispatch (C2) -/

/-- Helper for C2: the slot store after the scheduled tasks settled,
starting from any store: a slot of a settled task holds that task's
result, any other slot is untouched. -/
theorem promiseSlots_mem (f : ToolCall → Message) (cs : List ToolCall) :
    ∀ (order : List Nat) (init : Nat → Option Message) (i : Nat),
      (order.foldl (fun slots i => fun j => if j = i then (cs[i]?).map f else slots j) init) i
        = if i ∈ order then (cs[i]?).map f else init i := by
  intro order
  induction order with
  | nil => intro init i; simp
  | cons a rest ih =>
      intro init i
      rw [List.foldl_cons, ih]
      by_cases hia : i = a
      · subst hia
        by_cases hio : i ∈ rest <;> simp [hio, List.mem_cons]
      · by_cases hio : i ∈ rest <;> simp [hio, hia, List.mem_cons]

/-- Helper for C2: under any completion schedule that settles each of the
round's tasks exactly once, `Promise.all` resolves to the results in the
original call order. -/
theorem promiseAll_perm (f : ToolCall → Message) (cs : List ToolCall) (order : List Nat)
    (h : order.Perm (List.range cs.length)) :
    promiseAll f cs order = (cs.map f).map some := by
  apply List.ext_getElem
  · simp [promiseAll]
  · intro n h1 h2
    have hn : n < cs.length := by simpa [promiseAll] using h1
    have hmem : n ∈ order := by
      rw [h.mem_iff, List.mem_range]
      exact hn
    simp only [promiseAll]
    rw [List.getElem_map, List.getElem_range]
    rw [show promiseSlots f cs order n
        = (order.foldl (fun slots i => fun j => if j = i then (cs[i]?).map f else slots j)
            (fun _ => none)) n from rfl]
    rw [promiseSlots_mem, if_pos hmem, List.getElem?_eq_getElem hn]
    simp

/-- C2: in every assistant round with K tool calls, the dispatcher is
invoked exactly K times (one `(name, arguments)` trace entry per call, in
issue order); K tool-role messages are appended in the original call
order, each referencing the id of its call; and the concurrent join is
order-preserving — for every completion schedule, `Promise.all` resolves
to exactly the in-order result list that the loop appends to history. -/
theorem round_parallel_dispatch (model : List Message → AssistantMsg)
    (ex : String → String → String) (hist : List Message) (r : Nat)
    (calls : List (List Message)) (trace : List (String × String))
    (cs : List ToolCall) (order : List Nat)
    (hcs : (model (getSystemPrompt :: hist)).tool_calls = cs)
    (hne : cs ≠ []) (hord : order.Perm (List.range cs.length)) :
    promiseAll (runToolCall ex) cs order = (executeRound ex cs).map some
    ∧ (executeRound ex cs).length = cs.length
    ∧ (roundTrace cs).length = cs.length
    ∧ (∀ (i : Nat), ∀ hi : i < cs.length,
        (executeRound ex cs)[i]? = some (runToolCall ex cs[i])
        ∧ (runToolCall ex cs[i]).tool_call_id = some cs[i].id
        ∧ (runToolCall ex cs[i]).role = Role.tool)
    ∧ chatGo model ex (r + 1) hist calls trace
        = chatGo model ex r
            (hist ++ [assistantToMessage (model (getSystemPrompt :: hist))]
              ++ executeRound ex cs)
            (calls ++ [getSystemPrompt :: hist]) (trace ++ roundTrace cs) := by
  have hemp : ¬ (cs.isEmpty = true) := by
    intro hfalse
    exact hne (List.isEmpty_iff.mp hfalse)
  refine ⟨promiseAll_perm _ cs order hord, by simp [executeRound], by simp [roundTrace],
    ?_, ?_⟩
  · intro i hi
    refine ⟨?_, rfl, rfl⟩
    rw [show executeRound ex cs = cs.map (runToolCall ex) from rfl]
    rw [List.getElem?_map, List.getElem?_eq_getElem hi]
    rfl
  · simp only [chatGo, hcs, if_neg hemp]

/-- Witness for C2: two tool calls dispatched, schedule completing the
second call first; the join still yields the two results in call order. -/
theorem round_parallel_dispatch_witness :
    promiseAll (runToolCall (fun n _ => n ++ ":done"))
        [⟨"call_1", "get_data_source", "\x7b\x7d"⟩, ⟨"call_2", "list_media", "\x7b\x7d"⟩] [1, 0]
      = (executeRound (fun n _ => n ++ ":done")
          [⟨"call_1", "get_data_source", "\x7b\x7d"⟩, ⟨"call_2", "list_media", "\x7b\x7d"⟩]).map some
    ∧ (roundTrace
        [⟨"call_1", "get_data_source", "\x7b\x7d"⟩, ⟨"call_2", "list_media", "\x7b\x7d"⟩]).length
      = 2 := by
  have h := round_parallel_dispatch
    (fun _ => ⟨none, [⟨"call_1", "get_data_source", "\x7b\x7d"⟩, ⟨"call_2", "list_media", "\x7b\x7d"⟩]⟩)
    (fun n _ => n ++ ":done") [] 0 [] []
    [⟨"call_1", "get_data_source", "\x7b\x7d"⟩, ⟨"call_2", "list_media", "\x7b\x7d"⟩] [1, 0]
    rfl (by decide) (by decide)
  exact ⟨h.1, h.2.2.1⟩

/-! ## The tool dispatcher: error boundary (C3), unknown tools (C6) -/

/-- C3: for every tool name present in the dispatch table and every
arguments object, an error raised by the underlying client call is not
propagated: `execute` returns a structured error record carrying the
message, with `statusCode` and `details` present exactly when the error
is a `FlipletApiError`. -/
theorem execute_error_boundary (toolName : String)
    (hfn : FlipletApiClient → ToolArgs → Except JsError String × Nat)
    (hh : ToolExecutor.handlerFor toolName = some hfn)
    (c : FlipletApiClient) (args : ToolArgs) (e : JsError)
    (he : (hfn c args).1 = .error e) :
    ToolExecutor.execute c toolName args
      = .ok (.errorData (ToolExecutor.formatError e))
    ∧ (ToolExecutor.formatError e).statusCode.isSome = e.isFlipletApiError
    ∧ (ToolExecutor.formatError e).details.isSome = e.isFlipletApiError := by
  refine ⟨?_, ?_, ?_⟩
  · simp only [ToolExecutor.execute, hh, he]
  · cases e <;> rfl
  · cases e <;> rfl

/-- Witness for C3: a 401 from the remote API surfaces as an error record
with status code and details, not as an exception. -/
theorem execute_error_boundary_witness :
    ToolExecutor.execute
        ⟨"https://api.fliplet.com", "tok", "123",
          fun _ _ _ => .resolved ⟨false, 401, "Unauthorized", some "\x7b\x7d"⟩⟩
        "get_data_source" { dataSourceId := some 5 }
      = .ok (.errorData
          { message := "Fliplet API error: 401 Unauthorized — https://api.fliplet.com/v1/data-sources/5",
            statusCode := some 401, details := some "\x7b\x7d" }) := by
  have h := execute_error_boundary "get_data_source"
    (fun c a => c.getDataSource a.dataSourceId) rfl
    ⟨"https://api.fliplet.com", "tok", "123",
      fun _ _ _ => .resolved ⟨false, 401, "Unauthorized", some "\x7b\x7d"⟩⟩
    { dataSourceId := some 5 }
    (.flipletApi "Fliplet API error: 401 Unauthorized — https://api.fliplet.com/v1/data-sources/5"
      401 "\x7b\x7d")
    (by decide)
  exact h.1

/-- C6 is a code bug, evaluated here at the failing inputs with the
bracket lookup modelled in full.  `__proto__` is not in the dispatch
table, yet `execute` does not raise: the lookup finds `Object.prototype`
through the prototype chain, the truthy handler skips the unknown-tool
guard, and the resulting `TypeError` is caught and returned as a
structured error record — the very outcome the claim excludes.
`toString` likewise skips the guard and its call result is returned as a
payload.  Only a name found nowhere on the chain (e.g. `drop_database`)
raises `Unknown tool` as the claim — and the source's own doc comment —
demand for every name outside the dispatch table. -/
theorem execute_prototype_chain_leak :
    ToolExecutor.executeProto (fun _ _ => .ok "[object global]")
        ⟨"https://api.fliplet.com", "tok", "123", fun _ _ _ => .rejected "TypeError" "x"⟩
        "__proto__" {}
      = .ok (.errorData { message := "handler is not a function" })
    ∧ ToolExecutor.executeProto (fun _ _ => .ok "[object global]")
        ⟨"https://api.fliplet.com", "tok", "123", fun _ _ _ => .rejected "TypeError" "x"⟩
        "toString" {}
      = .ok (.ok "[object global]")
    ∧ ToolExecutor.executeProto (fun _ _ => .ok "[object global]")
        ⟨"https://api.fliplet.com", "tok", "123", fun _ _ _ => .rejected "TypeError" "x"⟩
        "drop_database" {}
      = .error ("Unknown tool: drop_database") := by
  decide

/-! ## The resource client: validation and exactly one fetch (C8) -/

/-- Helper for C8: `_request` performs exactly one `fetch`, on every path
through it (success, non-JSON body, non-2xx status, rejection, timeout). -/
theorem request_one_fetch (c : FlipletApiClient) (path method : String)
    (body : Option RequestBody) : (c.request path method body).2 = 1 := by
  unfold FlipletApiClient.request
  split
  · split <;> rfl
  · split
    · rfl
    · split <;> rfl

/-- C8: each of `getDataSource`, `getDataSourceEntries`, `getMediaFile`
raises a local validation error and performs zero fetches when its
required id is absent, and performs exactly one fetch (no retries) per
invocation when the id is present. -/
theorem client_required_param_one_fetch (c : FlipletApiClient) :
    c.getDataSource none
      = (.error (.other "Error" "getDataSource() requires a dataSourceId"), 0)
    ∧ (∀ options, c.getDataSourceEntries none options
        = (.error (.other "Error" "getDataSourceEntries() requires a dataSourceId"), 0))
    ∧ c.getMediaFile none
        = (.error (.other "Error" "getMediaFile() requires a fileId"), 0)
    ∧ (∀ id : Int, (c.getDataSource (some id)).2 = 1)
    ∧ (∀ (id : Int) (options : FlipletApiClient.QueryOptions),
        (c.getDataSourceEntries (some id) options).2 = 1)
    ∧ (∀ fid : Int, (c.getMediaFile (some fid)).2 = 1) := by
  refine ⟨rfl, fun _ => rfl, rfl, ?_, ?_, ?_⟩
  · intro id
    exact request_one_fetch c _ _ _
  · intro id options
    exact request_one_fetch c _ _ _
  · intro fid
    exact request_one_fetch c _ _ _

/-! ## The session registry: helper lemmas -/

/-- Helper: the `_evictOldest` scan started from a candidate best
`(a, t)` ends on a candidate no larger than `t`, no larger than every
scanned timestamp, and which is either the start candidate or one of the
scanned entries. -/
theorem oldestGo_min (l : List (String × Session)) :
    ∀ (a : String) (t : Nat), ∃ a2 t2,
      SessionManager.oldestGo l (some a) (some t) = (some a2, some t2)
      ∧ t2 ≤ t ∧ (∀ q ∈ l, t2 ≤ q.2.lastAccessed)
      ∧ ((a2 = a ∧ t2 = t) ∨ ∃ q ∈ l, a2 = q.1 ∧ t2 = q.2.lastAccessed) := by
  induction l with
  | nil =>
      intro a t
      exact ⟨a, t, rfl, Nat.le_refl t, by intro q hq; exact absurd hq (List.not_mem_nil q),
        Or.inl ⟨rfl, rfl⟩⟩
  | cons p rest ih =>
      intro a t
      by_cases hlt : p.2.lastAccessed < t
      · obtain ⟨a2, t2, heq, hle, hmin, hor⟩ := ih p.1 p.2.lastAccessed
        refine ⟨a2, t2, ?_, by omega, ?_, ?_⟩
        · simp only [SessionManager.oldestGo, if_pos hlt]
          exact heq
        · intro q hq
          rcases List.mem_cons.mp hq with rfl | hq2
          · exact hle
          · exact hmin q hq2
        · rcases hor with ⟨ha, ht⟩ | ⟨q, hq, ha, ht⟩
          · exact Or.inr ⟨p, List.mem_cons_self p rest, ha, ht⟩
          · exact Or.inr ⟨q, List.mem_cons_of_mem p hq, ha, ht⟩
      · obtain ⟨a2, t2, heq, hle, hmin, hor⟩ := ih a t
        refine ⟨a2, t2, ?_, hle, ?_, ?_⟩
        · simp only [SessionManager.oldestGo, if_neg hlt]
          exact heq
        · intro q hq
          rcases List.mem_cons.mp hq with rfl | hq2
          · omega
          · exact hmin q hq2
        · rcases hor with h2 | ⟨q, hq, ha, ht⟩
          · exact Or.inl h2
          · exact Or.inr ⟨q, List.mem_cons_of_mem p hq, ha, ht⟩

/-- Helper: on a non-empty session list, the `_evictOldest` scan names a
stored entry whose timestamp is minimal over all stored entries. -/
theorem oldestGo_argmin (l : List (String × Session)) (hl : l ≠ []) :
    ∃ r ∈ l, (SessionManager.oldestGo l none none).1 = some r.1
      ∧ ∀ q ∈ l, r.2.lastAccessed ≤ q.2.lastAccessed := by
  match l, hl with
  | p :: rest, _ =>
      obtain ⟨a2, t2, heq, hle, hmin, hor⟩ := oldestGo_min rest p.1 p.2.lastAccessed
      have hstep : SessionManager.oldestGo (p :: rest) none none
          = SessionManager.oldestGo rest (some p.1) (some p.2.lastAccessed) := rfl
      rcases hor with ⟨ha, ht⟩ | ⟨q, hq, ha, ht⟩
      · refine ⟨p, List.mem_cons_self p rest, ?_, ?_⟩
        · rw [hstep, heq, ha]
        · intro q hq
          rcases List.mem_cons.mp hq with rfl | hq2
          · exact Nat.le_refl _
          · have := hmin q hq2
            omega
      · refine ⟨q, List.mem_cons_of_mem p hq, ?_, ?_⟩
        · rw [hstep, heq, ha]
        · intro q2 hq2
          rcases List.mem_cons.mp hq2 with rfl | hq3
          · omega
          · have := hmin q2 hq3
            omega

/-- Helper: with distinct keys, an entry is determined by its key. -/
theorem entry_eq_of_key_eq (l : List (String × Session))
    (hnd : (l.map Prod.fst).Nodup) (a b : String × Session)
    (ha : a ∈ l) (hb : b ∈ l) (hab : a.1 = b.1) : a = b := by
  induction l with
  | nil => exact absurd ha (List.not_mem_nil a)
  | cons p rest ih =>
      have hnd2 := List.nodup_cons.mp hnd
      rcases List.mem_cons.mp ha with rfl | ha2
      · rcases List.mem_cons.mp hb with rfl | hb2
        · rfl
        · exact absurd (hab ▸ List.mem_map_of_mem Prod.fst hb2) hnd2.1
      · rcases List.mem_cons.mp hb with rfl | hb2
        · exact absurd (hab ▸ List.mem_map_of_mem Prod.fst ha2) hnd2.1
        · exact ih hnd2.2 ha2 hb2

/-- Helper: when every stored id is non-empty and the list is non-empty,
`_evictOldest` deletes exactly one entry, one with minimal timestamp. -/
theorem evictOldest_spec (m : SessionManager)
    (hne : ∀ p ∈ m.sessions, p.1 ≠ "") (hnonempty : m.sessions ≠ []) :
    ∃ r ∈ m.sessions,
      (∀ q ∈ m.sessions, r.2.lastAccessed ≤ q.2.lastAccessed)
      ∧ m.evictOldest
          = { m with sessions := m.sessions.eraseP (fun p => p.1 == r.1) }
      ∧ (m.evictOldest).sessions.length = m.sessions.length - 1 := by
  obtain ⟨r, hr, hkey, hmin⟩ := oldestGo_argmin m.sessions hnonempty
  have hrne : r.1 ≠ "" := hne r hr
  have hev : m.evictOldest
      = { m with sessions := m.sessions.eraseP (fun p => p.1 == r.1) } := by
    unfold SessionManager.evictOldest
    rw [hkey]
    simp only [if_neg hrne]
  refine ⟨r, hr, hmin, hev, ?_⟩
  rw [hev]
  exact List.length_eraseP_of_mem hr (by simp)

/-- Helper: `_evictOldest` only touches the session list. -/
theorem evictOldest_preserves (m : SessionManager) :
    (m.evictOldest).maxSessions = m.maxSessions
    ∧ (m.evictOldest).nextEngine = m.nextEngine
    ∧ (m.evictOldest).sessionTtlMs = m.sessionTtlMs := by
  unfold SessionManager.evictOldest
  cases (SessionManager.oldestGo m.sessions none none).1 with
  | none => exact ⟨rfl, rfl, rfl⟩
  | some oid => by_cases h : oid = "" <;> simp [h]

/-- Helper: an absent id makes `Map.get` miss (`find?` returns `none`). -/
theorem find?_eq_none_of_has_false (m : SessionManager) (id : String)
    (h : m.has id = false) : m.sessions.find? (fun p => p.1 == id) = none := by
  rw [List.find?_eq_none]
  intro p hp hbeq
  have := List.any_eq_false.mp h p hp
  exact this hbeq

/-! ## Capacity eviction on `resolve` of a new id (C4) -/

/-- Counterexample to C4 as stated: with capacity 1, a registry holding
exactly one session whose id is the empty string (whose timestamp is
therefore the minimum), `getOrCreate` on a fresh id removes nothing —
the `if (oldestId)` guard treats the falsy id `""` like `null` — so the
old session stays stored and the registry grows past its capacity. -/
theorem getOrCreate_empty_id_counterexample :
    (((SessionManager.new none (some 1)).getOrCreate "" 0).1.sessions.length
        = ((SessionManager.new none (some 1)).getOrCreate "" 0).1.maxSessions)
    ∧ ((SessionManager.new none (some 1)).getOrCreate "" 0).1.has "session-b" = false
    ∧ ((((SessionManager.new none (some 1)).getOrCreate "" 0).1.getOrCreate
        "session-b" 5).1.sessions.length = 2)
    ∧ ("", { engine := 0, lastAccessed := 0 })
        ∈ ((((SessionManager.new none (some 1)).getOrCreate "" 0).1.getOrCreate
            "session-b" 5).1.sessions) := by
  decide

/-- C4 (amended: all stored session ids are non-empty strings — the JS
truthiness guard in `_evictOldest` skips the deletion for the falsy id
`""`): a registry at capacity resolving an unknown id removes exactly one
stored session, one whose `lastAccessed` is minimal over all stored
sessions, before storing the new session; every other session remains
stored, and the count returns to exactly the capacity. -/
theorem getOrCreate_evicts_lru (m : SessionManager) (id : String) (now : Nat)
    (hnd : (m.sessions.map Prod.fst).Nodup)
    (hne : ∀ p ∈ m.sessions, p.1 ≠ "")
    (hfull : m.sessions.length = m.maxSessions)
    (hpos : 0 < m.maxSessions)
    (hnew : m.has id = false) :
    ∃ r ∈ m.sessions,
      (∀ q ∈ m.sessions, r.2.lastAccessed ≤ q.2.lastAccessed)
      ∧ (m.getOrCreate id now).1.sessions
          = m.sessions.eraseP (fun p => p.1 == r.1)
            ++ [(id, { engine := m.nextEngine, lastAccessed := now })]
      ∧ (m.getOrCreate id now).1.sessions.length = m.maxSessions
      ∧ (∀ q ∈ m.sessions, q ≠ r → q ∈ (m.getOrCreate id now).1.sessions)
      ∧ (id, { engine := m.nextEngine, lastAccessed := now })
          ∈ (m.getOrCreate id now).1.sessions := by
  have hfind := find?_eq_none_of_has_false m id hnew
  have hnonempty : m.sessions ≠ [] := by
    intro hnil
    rw [hnil] at hfull
    simp at hfull
    omega
  obtain ⟨r, hr, hmin, hev, hlen⟩ := evictOldest_spec m hne hnonempty
  have hge : m.sessions.length ≥ m.maxSessions := Nat.le_of_eq hfull.symm
  have hsess : (m.getOrCreate id now).1.sessions
      = (m.evictOldest).sessions
        ++ [(id, { engine := (m.evictOldest).nextEngine, lastAccessed := now })] := by
    simp only [SessionManager.getOrCreate, hfind, if_pos hge]
  have hnexteq := (evictOldest_preserves m).2.1
  refine ⟨r, hr, hmin, ?_, ?_, ?_, ?_⟩
  · rw [hsess, hnexteq, hev]
  · rw [hsess, List.length_append, hlen]
    simp only [List.length_singleton]
    omega
  · intro q hq hqr
    rw [hsess, hev]
    apply List.mem_append_left
    have hkeyne : q.1 ≠ r.1 := by
      intro hkey
      exact hqr (entry_eq_of_key_eq m.sessions hnd q r hq hr hkey)
    rw [List.mem_eraseP_of_neg (by simpa using hkeyne)]
    exact hq
  · rw [hsess, hnexteq]
    exact List.mem_append_right _ (List.mem_singleton.mpr rfl)

/-- Witness for C4 (amended): capacity 2, sessions `a` (engine 0, time
10) and `b` (engine 1, time 5); resolving `c` evicts exactly `b`. -/
theorem getOrCreate_evicts_lru_witness :
    ∃ r ∈ ([("a", { engine := 0, lastAccessed := 10 }),
        ("b", { engine := 1, lastAccessed := 5 })] : List (String × Session)),
      (∀ q ∈ ([("a", { engine := 0, lastAccessed := 10 }),
          ("b", { engine := 1, lastAccessed := 5 })] : List (String × Session)),
        r.2.lastAccessed ≤ q.2.lastAccessed)
      ∧ (SessionManager.getOrCreate
            { sessions := [("a", { engine := 0, lastAccessed := 10 }),
                ("b", { engine := 1, lastAccessed := 5 })],
              nextEngine := 2, sessionTtlMs := 1800000, maxSessions := 2 } "c" 20).1.sessions
          = ([("a", { engine := 0, lastAccessed := 10 }),
              ("b", { engine := 1, lastAccessed := 5 })] : List (String × Session)).eraseP
              (fun p => p.1 == r.1)
            ++ [("c", { engine := 2, lastAccessed := 20 })]
      ∧ (SessionManager.getOrCreate
            { sessions := [("a", { engine := 0, lastAccessed := 10 }),
                ("b", { engine := 1, lastAccessed := 5 })],
              nextEngine := 2, sessionTtlMs := 1800000, maxSessions := 2 } "c" 20).1.sessions.length
          = 2
      ∧ (∀ q ∈ ([("a", { engine := 0, lastAccessed := 10 }),
          ("b", { engine := 1, lastAccessed := 5 })] : List (String × Session)),
          q ≠ r → q ∈ (SessionManager.getOrCreate
            { sessions := [("a", { engine := 0, lastAccessed := 10 }),
                ("b", { engine := 1, lastAccessed := 5 })],
              nextEngine := 2, sessionTtlMs := 1800000, maxSessions := 2 } "c" 20).1.sessions)
      ∧ ("c", { engine := 2, lastAccessed := 20 })
          ∈ (SessionManager.getOrCreate
            { sessions := [("a", { engine := 0, lastAccessed := 10 }),
                ("b", { engine := 1, lastAccessed := 5 })],
              nextEngine := 2, sessionTtlMs := 1800000, maxSessions := 2 } "c" 20).1.sessions := by
  exact getOrCreate_evicts_lru
    { sessions := [("a", { engine := 0, lastAccessed := 10 }),
        ("b", { engine := 1, lastAccessed := 5 })],
      nextEngine := 2, sessionTtlMs := 1800000, maxSessions := 2 } "c" 20
    (by decide) (by decide) (by decide) (by decide) (by decide)

/-! ## TTL sweep and re-resolution (C7) -/

/-- C7: one run of the TTL sweep keeps exactly the sessions whose idle
time does not exceed the TTL and removes every other (and no more); a
subsequent `getOrCreate` on an id the sweep removed finds no session and
creates and returns a brand-new engine, distinct from the engine that id
held before expiry. -/
theorem evictExpired_sweep (m : SessionManager) (now now2 : Nat) (id : String) (s : Session)
    (hnd : (m.sessions.map Prod.fst).Nodup)
    (hwf : ∀ p ∈ m.sessions, p.2.engine < m.nextEngine)
    (hmem : (id, s) ∈ m.sessions) :
    (∀ q, q ∈ (m.evictExpired now).sessions
        ↔ (q ∈ m.sessions ∧ ¬ (now - q.2.lastAccessed > m.sessionTtlMs)))
    ∧ (now - s.lastAccessed > m.sessionTtlMs →
        (m.evictExpired now).has id = false
        ∧ ((m.evictExpired now).getOrCreate id now2).2 = m.nextEngine
        ∧ ((m.evictExpired now).getOrCreate id now2).2 ≠ s.engine
        ∧ (id, { engine := m.nextEngine, lastAccessed := now2 })
            ∈ ((m.evictExpired now).getOrCreate id now2).1.sessions) := by
  have hmemiff : ∀ q, q ∈ (m.evictExpired now).sessions
      ↔ (q ∈ m.sessions ∧ ¬ (now - q.2.lastAccessed > m.sessionTtlMs)) := by
    intro q
    simp [SessionManager.evictExpired, List.mem_filter]
  refine ⟨hmemiff, ?_⟩
  intro hexp
  have hhas : (m.evictExpired now).has id = false := by
    rw [SessionManager.has, List.any_eq_false]
    intro p hp hbeq
    have hpm := (hmemiff p).mp hp
    have hpeq : p = (id, s) := by
      apply entry_eq_of_key_eq m.sessions hnd p (id, s) hpm.1 hmem
      simpa using hbeq
    rw [hpeq] at hpm
    exact hpm.2 hexp
  have hfind := find?_eq_none_of_has_false (m.evictExpired now) id hhas
  have hnext : (m.evictExpired now).nextEngine = m.nextEngine := rfl
  have hres : ((m.evictExpired now).getOrCreate id now2).2 = m.nextEngine := by
    by_cases hcap : (m.evictExpired now).sessions.length ≥ (m.evictExpired now).maxSessions
    · simp only [SessionManager.getOrCreate, hfind, if_pos hcap]
      rw [(evictOldest_preserves (m.evictExpired now)).2.1]
      exact hnext
    · simp only [SessionManager.getOrCreate, hfind, if_neg hcap]
      exact hnext
  have hsengine : s.engine < m.nextEngine := hwf (id, s) hmem
  refine ⟨hhas, hres, by omega, ?_⟩
  by_cases hcap : (m.evictExpired now).sessions.length ≥ (m.evictExpired now).maxSessions
  · simp only [SessionManager.getOrCreate, hfind, if_pos hcap]
    rw [(evictOldest_preserves (m.evictExpired now)).2.1, hnext]
    exact List.mem_append_right _ (List.mem_singleton.mpr rfl)
  · simp only [SessionManager.getOrCreate, hfind, if_neg hcap]
    rw [hnext]
    exact List.mem_append_right _ (List.mem_singleton.mpr rfl)

/-- Witness for C7: TTL 10, sessions `a` (idle 50) and `b` (idle 0) at
sweep time 50: the sweep drops `a`, and re-resolving `a` hands out the
fresh engine 2, distinct from the engine 0 it held before expiry. -/
theorem evictExpired_sweep_witness :
    (SessionManager.evictExpired
        { sessions := [("a", { engine := 0, lastAccessed := 0 }),
            ("b", { engine := 1, lastAccessed := 50 })],
          nextEngine := 2, sessionTtlMs := 10, maxSessions := 100 } 50).has "a" = false
    ∧ ((SessionManager.evictExpired
        { sessions := [("a", { engine := 0, lastAccessed := 0 }),
            ("b", { engine := 1, lastAccessed := 50 })],
          nextEngine := 2, sessionTtlMs := 10, maxSessions := 100 } 50).getOrCreate "a" 60).2 = 2
    ∧ ((SessionManager.evictExpired
        { sessions := [("a", { engine := 0, lastAccessed := 0 }),
            ("b", { engine := 1, lastAccessed := 50 })],
          nextEngine := 2, sessionTtlMs := 10, maxSessions := 100 } 50).getOrCreate "a" 60).2
        ≠ ({ engine := 0, lastAccessed := 0 } : Session).engine := by
  have h := evictExpired_sweep
    { sessions := [("a", { engine := 0, lastAccessed := 0 }),
        ("b", { engine := 1, lastAccessed := 50 })],
      nextEngine := 2, sessionTtlMs := 10, maxSessions := 100 } 50 60 "a"
    { engine := 0, lastAccessed := 0 } (by decide) (by decide) (by decide)
  have h2 := h.2 (by decide)
  exact ⟨h2.1, h2.2.1, h2.2.2.1⟩

/-! ## The capacity bound over operation sequences (C9) -/

/-- Counterexample to C9 as stated: with capacity 1 and the session-id
strings `""` then `"session-b"`, the stored-session count reaches 2 —
`_evictOldest` declines to delete the entry whose id is the falsy string
`""`, so the capacity bound is broken. -/
theorem capacity_overflow_counterexample :
    (SessionManager.new none (some 1)).maxSessions = 1
    ∧ (runSMOps (SessionManager.new none (some 1))
        [SMOp.create "" 0, SMOp.create "session-b" 5]).sessions.length = 2 := by
  decide

/-- Helper for C9: one `getOrCreate` or `destroy` preserves the registry
invariant (non-empty stored ids, count bounded by capacity), provided the
operation's session id is non-empty. -/
theorem applySMOp_inv (m : SessionManager) (op : SMOp)
    (hid : op.sessionId ≠ "")
    (hne : ∀ p ∈ m.sessions, p.1 ≠ "")
    (hlen : m.sessions.length ≤ m.maxSessions)
    (hpos : 0 < m.maxSessions) :
    (∀ p ∈ (applySMOp m op).sessions, p.1 ≠ "")
    ∧ (applySMOp m op).sessions.length ≤ m.maxSessions
    ∧ (applySMOp m op).maxSessions = m.maxSessions := by
  cases op with
  | destroySession did =>
      refine ⟨?_, ?_, rfl⟩
      · intro p hp
        exact hne p ((List.eraseP_sublist m.sessions).mem hp)
      · calc (m.sessions.eraseP (fun p => p.1 == did)).length
              ≤ m.sessions.length := (List.eraseP_sublist m.sessions).length_le
          _ ≤ m.maxSessions := hlen
  | create cid cnow =>
      cases hfind : m.sessions.find? (fun p => p.1 == cid) with
      | some p =>
          have hsess : (applySMOp m (SMOp.create cid cnow)).sessions
              = m.sessions.map (fun q =>
                  if q.1 = cid then (q.1, { q.2 with lastAccessed := cnow }) else q) := by
            simp only [applySMOp, SessionManager.getOrCreate, hfind]
          refine ⟨?_, ?_, ?_⟩
          · intro q hq
            rw [hsess] at hq
            rcases List.mem_map.mp hq with ⟨q2, hq2, rfl⟩
            by_cases h2 : q2.1 = cid <;> simp only [h2, if_pos, if_neg, ne_eq] <;>
              first
                | exact hne q2 hq2
                | simpa [h2] using hne q2 hq2
          · rw [hsess, List.length_map]
            exact hlen
          · simp only [applySMOp, SessionManager.getOrCreate, hfind]
      | none =>
          by_cases hcap : m.sessions.length ≥ m.maxSessions
          · have hnonempty : m.sessions ≠ [] := by
              intro hnil
              rw [hnil] at hcap
              simp at hcap
              omega
            obtain ⟨r, hr, _, hev, hevlen⟩ := evictOldest_spec m hne hnonempty
            have hsess : (applySMOp m (SMOp.create cid cnow)).sessions
                = (m.evictOldest).sessions
                  ++ [(cid, { engine := (m.evictOldest).nextEngine, lastAccessed := cnow })] := by
              simp only [applySMOp, SessionManager.getOrCreate, hfind, if_pos hcap]
            refine ⟨?_, ?_, ?_⟩
            · intro q hq
              rw [hsess] at hq
              rcases List.mem_append.mp hq with h2 | h2
              · rw [hev] at h2
                exact hne q ((List.eraseP_sublist m.sessions).mem h2)
              · rcases List.mem_singleton.mp h2 with rfl
                exact hid
            · rw [hsess, List.length_append, hevlen]
              simp only [List.length_singleton]
              omega
            · simp only [applySMOp, SessionManager.getOrCreate, hfind, if_pos hcap]
              exact (evictOldest_preserves m).1
          · have hsess : (applySMOp m (SMOp.create cid cnow)).sessions
                = m.sessions
                  ++ [(cid, { engine := m.nextEngine, lastAccessed := cnow })] := by
              simp only [applySMOp, SessionManager.getOrCreate, hfind, if_neg hcap]
            refine ⟨?_, ?_, ?_⟩
            · intro q hq
              rw [hsess] at hq
              rcases List.mem_append.mp hq with h2 | h2
              · exact hne q h2
              · rcases List.mem_singleton.mp h2 with rfl
                exact hid
            · rw [hsess, List.length_append]
              simp only [List.length_singleton]
              omega
            · simp only [applySMOp, SessionManager.getOrCreate, hfind, if_neg hcap]

/-- Helper for C9: the constructor's `||`-defaulting always yields a
positive capacity. -/
theorem jsOrDefault_pos (o : Option Nat) (d : Nat) (hd : 0 < d) :
    0 < SessionManager.jsOrDefault o d := by
  cases o with
  | none => exact hd
  | some n => cases n with
    | zero => exact hd
    | succ k => exact Nat.succ_pos k

/-- C9 (amended: every operated-on session id is a non-empty string —
the empty string breaks the bound, see the counterexample): over any
sequence of `getOrCreate` and `destroy` operations from a freshly
constructed registry, the stored-session count after each operation never
exceeds the configured capacity. -/
theorem session_count_bounded (ttlOpt maxOpt : Option Nat) (ops pre suf : List SMOp)
    (hids : ∀ op ∈ ops, op.sessionId ≠ "") (hsplit : ops = pre ++ suf) :
    (runSMOps (SessionManager.new ttlOpt maxOpt) pre).sessions.length
      ≤ (SessionManager.new ttlOpt maxOpt).maxSessions := by
  have hpre : ∀ op ∈ pre, op.sessionId ≠ "" := by
    intro op hop
    exact hids op (hsplit ▸ List.mem_append_left suf hop)
  suffices h : ∀ (l : List SMOp) (m : SessionManager),
      (∀ op ∈ l, op.sessionId ≠ "") →
      (∀ p ∈ m.sessions, p.1 ≠ "") →
      m.sessions.length ≤ m.maxSessions →
      0 < m.maxSessions →
      (runSMOps m l).sessions.length ≤ m.maxSessions by
    exact h pre (SessionManager.new ttlOpt maxOpt) hpre
      (fun p hp => absurd hp (List.not_mem_nil p)) (by simp [SessionManager.new])
      (jsOrDefault_pos maxOpt 100 (by omega))
  intro l
  induction l with
  | nil => intro m _ _ hlen _; exact hlen
  | cons op rest ih =>
      intro m hops hne hlen hpos
      have hstep := applySMOp_inv m op (hops op (List.mem_cons_self op rest)) hne hlen hpos
      have hrec := ih (applySMOp m op)
        (fun o ho => hops o (List.mem_cons_of_mem op ho))
        hstep.1 (hstep.2.2 ▸ hstep.2.1) (hstep.2.2 ▸ hpos)
      calc (runSMOps (applySMOp m op) rest).sessions.length
          ≤ (applySMOp m op).maxSessions := hrec
        _ = m.maxSessions := hstep.2.2

/-- Witness for C9 (amended): capacity 1 and two creates with non-empty
ids keep the count at 1. -/
theorem session_count_bounded_witness :
    (runSMOps (SessionManager.new none (some 1))
        [SMOp.create "session-a" 0, SMOp.create "session-b" 5]).sessions.length
      ≤ (SessionManager.new none (some 1)).maxSessions := by
  exact session_count_bounded none (some 1)
    [SMOp.create "session-a" 0, SMOp.create "session-b" 5]
    [SMOp.create "session-a" 0, SMOp.create "session-b" 5] []
    (by decide) (by decide)

end FlipletBot
